import Mathlib

/-!
Verification of the managed_media_compressor core against its specification.

The Python sources are shallowly embedded: the catalog (media_database.py) is a
list of file records plus an event log, the compressor (media_compressor.py) is
a family of state-passing functions over that catalog and a small world state
describing the on-disk temp output, the scanner (media_scanner.py) is the
per-file reconciliation step plus the end-of-scan promotion, and the external
world (stat results, encoder exit status, probe output, quality scores) is an
explicit environment record consumed by each operation.
-/

namespace MMC

/-! ## Status constants (constants.py) -/

inductive Status where
  | new
  | pending
  | in_progress
  | completed
  | skipped
  | error
  | needs_reprocessing
  | validating
  | paused
deriving DecidableEq, Repr

/-! ## Data model (media_database.py, table processed_files) -/

/-- One row of the processed_files table.  Columns that the schema leaves
NULL-able are Option-typed; columns with a DEFAULT carry that default. -/
structure FileRecord where
  file_path : String
  original_size : Nat
  compressed_size : Option Nat
  compression_date : Option String
  queued_date : Option String
  processing_started : Option String
  last_checked_date : Option String
  checksum : String
  content_type : Option String
  quality_score : Option ℚ
  status : Status
  error_message : Option String
  skip_reason : Option String
  compression_count : Nat
  priority : Int
  estimated_time : Int
  actual_time : Nat
deriving DecidableEq, Repr

/-- One row of the system_events table. -/
structure Event where
  event_type : String
  details : String
  severity : String
deriving DecidableEq, Repr

/-- One row of the compression_stats table. -/
structure SessionStats where
  files_processed : Nat
  errorCount : Nat
  total_original_size : Nat
  total_compressed_size : Nat
  savings_percentage : ℚ
deriving DecidableEq, Repr

/-- The catalog: the persisted rows the claims are about. -/
structure DB where
  files : List FileRecord
  events : List Event
  stats : List SessionStats
deriving DecidableEq, Repr

/-- The kwargs of update_file_status: a partial update, one optional value per
updatable column.  A field left none is not mentioned in the UPDATE. -/
structure FileUpdate where
  original_size : Option Nat := none
  compressed_size : Option Nat := none
  compression_date : Option String := none
  queued_date : Option String := none
  processing_started : Option String := none
  last_checked_date : Option String := none
  checksum : Option String := none
  content_type : Option String := none
  quality_score : Option ℚ := none
  error_message : Option String := none
  skip_reason : Option String := none
  compression_count : Option Nat := none
  priority : Option Int := none
  estimated_time : Option Int := none
  actual_time : Option Nat := none
deriving Repr

/-- Apply a partial update (always including the status column, as
update_file_status always sets status) to one record. -/
def applyUpdate (r : FileRecord) (st : Status) (u : FileUpdate) : FileRecord :=
  { r with
    status := st
    original_size := u.original_size.getD r.original_size
    compressed_size := match u.compressed_size with
      | some v => some v
      | none => r.compressed_size
    compression_date := match u.compression_date with
      | some v => some v
      | none => r.compression_date
    queued_date := match u.queued_date with
      | some v => some v
      | none => r.queued_date
    processing_started := match u.processing_started with
      | some v => some v
      | none => r.processing_started
    last_checked_date := match u.last_checked_date with
      | some v => some v
      | none => r.last_checked_date
    checksum := u.checksum.getD r.checksum
    content_type := match u.content_type with
      | some v => some v
      | none => r.content_type
    quality_score := match u.quality_score with
      | some v => some v
      | none => r.quality_score
    error_message := match u.error_message with
      | some v => some v
      | none => r.error_message
    skip_reason := match u.skip_reason with
      | some v => some v
      | none => r.skip_reason
    compression_count := u.compression_count.getD r.compression_count
    priority := u.priority.getD r.priority
    estimated_time := u.estimated_time.getD r.estimated_time
    actual_time := u.actual_time.getD r.actual_time }

/-- MediaDatabase.update_file_status: UPDATE processed_files SET status, kwargs
WHERE file_path matches. -/
def DB.update_file_status (db : DB) (path : String) (st : Status) (u : FileUpdate) : DB :=
  { db with files := db.files.map fun r =>
      if r.file_path = path then applyUpdate r st u else r }

/-- MediaDatabase.log_system_event: append one row to system_events. -/
def DB.log_system_event (db : DB) (event_type details severity : String) : DB :=
  { db with events := db.events ++ [⟨event_type, details, severity⟩] }

/-! ## Configuration (constants.py DEFAULT_CONFIG, keys the claims need) -/

structure Config where
  extensions : List String
  min_size_mb : Nat
  size_reduction_threshold : ℚ
  quality_enabled : Bool
  quality_threshold : ℚ
  verify_files : Bool
  min_free_space_mb : ℚ
  min_memory_mb : ℚ
  compression_queue_size : Nat
deriving Repr

/-! ## Quality validator (quality_validator.py) -/

/-- The dict returned by QualityValidator.validate_compression. -/
structure QualityResult where
  score : ℚ
  acceptable : Bool
  method : String
deriving DecidableEq, Repr

/-- What a Python name bound by an import may denote here: either the time
module (whose time() call returns the epoch seconds) or the class
datetime.time from the standard library. -/
inductive TimeName where
  | timeModule
  | datetimeTimeClass
deriving DecidableEq, Repr

/-- media_database.py line 8 reads: from datetime import time.  So inside that
module the bare name time denotes the class datetime.time. -/
def mediaDatabaseTimeName : TimeName := .datetimeTimeClass

/-- quality_validator.py line 7 reads: from datetime import time. -/
def qualityValidatorTimeName : TimeName := .datetimeTimeClass

/-- The attributes of the class datetime.time in the Python standard library
(data attributes, class constants and methods).  None of them is named time. -/
def datetimeTimeClassAttrs : List String :=
  ["min", "max", "resolution", "hour", "minute", "second", "microsecond",
   "tzinfo", "fold", "replace", "isoformat", "fromisoformat", "strftime",
   "utcoffset", "dst", "tzname"]

/-- Evaluate the Python expression time.time() under a given binding of the
name time.  Under the module binding it returns the current epoch seconds;
under the datetime.time class binding the attribute lookup fails and the call
raises AttributeError. -/
def call_time_time (binding : TimeName) (epoch : Nat) : Except String Nat :=
  match binding with
  | .timeModule => .ok epoch
  | .datetimeTimeClass =>
      if "time" ∈ datetimeTimeClassAttrs then .ok epoch
      else .error "AttributeError: type object datetime.time has no attribute time"

/-- The structured output of _get_video_info: either the error sentinel (the
dict carries an error key) or a best-effort record with a duration. -/
structure VideoInfo where
  errored : Bool
  duration_s : ℚ
deriving DecidableEq, Repr

/-- Parse outcomes for one validation method, had its ffmpeg run and result
file been reached: the pooled VMAF mean, the SSIM All value, the PSNR average,
each none when the tool run or the parse would fail. -/
structure MethodOutcome where
  vmaf_mean : Option ℚ
  ssim_all : Option ℚ
  psnr_average : Option ℚ
deriving Repr

/-- Environment for one validate_compression call. -/
structure ValidateEnv where
  enabled : Bool
  primary_method : String
  threshold : ℚ
  sample_duration : ℚ
  original_info : VideoInfo
  compressed_info : VideoInfo
  epoch : Nat
  outcome : MethodOutcome
deriving Repr

/-- One iteration of the method loop in validate_compression.  The loop body
first builds the result-file name, interpolating int(time.time()); under the
datetime.time binding that raises before ffmpeg is invoked, and the per-method
exception handler turns the iteration into a failure (none), moving on to the
next method.  The remainder of the body is the per-method parse and verdict
from the source. -/
def try_quality_method (binding : TimeName) (env : ValidateEnv) (method : String) :
    Option QualityResult :=
  match call_time_time binding env.epoch with
  | .error _ => none
  | .ok _ =>
    if method = "vmaf" then
      match env.outcome.vmaf_mean with
      | some score => some ⟨score, decide (score ≥ env.threshold), "vmaf"⟩
      | none => none
    else if method = "ssim" then
      match env.outcome.ssim_all with
      | some allv =>
          some ⟨allv * 100, decide (allv * 100 ≥ max (env.threshold * 8 / 10) 80), "ssim"⟩
      | none => none
    else
      match env.outcome.psnr_average with
      | some psnr =>
          some ⟨if psnr < 50 then min 100 (psnr * 2) else 100, decide (psnr ≥ 30), "psnr"⟩
      | none => none

/-- The method order: the configured primary method first, then the remaining
ones of vmaf, ssim, psnr. -/
def methods_to_try (primary : String) : List String :=
  primary :: (["vmaf", "ssim", "psnr"].filter fun m => m ≠ primary)

/-- Run the method loop until one method yields a result. -/
def run_quality_methods (binding : TimeName) (env : ValidateEnv) :
    List String → Option QualityResult
  | [] => none
  | m :: rest =>
    match try_quality_method binding env m with
    | some r => some r
    | none => run_quality_methods binding env rest

/-- QualityValidator.validate_compression.  Disabled validation and probe or
duration failures return the benefit-of-the-doubt sentinel; otherwise the
method loop runs and, when every method fails, the score-85 fallback is
returned.  (The outer exception handler returning the score-80 error fallback
is modelled by validate_compression_error below, since no statement inside the
outer try can raise past the inner handlers.) -/
def validate_compression (binding : TimeName) (env : ValidateEnv) : QualityResult :=
  if ¬ env.enabled then ⟨100, true, "none"⟩
  else if env.original_info.errored ∨ env.compressed_info.errored then
    ⟨100, true, "none"⟩
  else if env.original_info.duration_s ≤ 0 ∨ env.compressed_info.duration_s ≤ 0 then
    ⟨100, true, "none"⟩
  else
    match run_quality_methods binding env (methods_to_try env.primary_method) with
    | some r => r
    | none => ⟨85, true, "fallback"⟩

/-- The value returned by the outer exception handler of validate_compression,
for a call that raises outside the per-method loop. -/
def validate_compression_error : QualityResult := ⟨80, true, "error_fallback"⟩

/-! ## Compressor pipeline (media_compressor.py) -/

/-- On-disk state that compress_file manipulates besides the catalog: whether
the temp output file currently exists and whether the source file has been
replaced by the compressed output. -/
structure World where
  tempExists : Bool
  sourceReplaced : Bool
deriving DecidableEq, Repr

/-- The external world as one compress_file call observes it: stat results,
integrity-probe verdicts, the pause and running flags at the line-granularity
checks inside run_handbrake, the encoder outcome, the produced temp output,
the quality verdict, and the clock. -/
structure CompressEnv where
  stat_original : Option Nat
  verify_original_ok : Bool
  content_type : String
  pausedFlag : Bool
  runningFlag : Bool
  encode_ok : Bool
  temp_created : Bool
  temp_size : Nat
  quality : QualityResult
  verify_temp_ok : Bool
  move_ok : Bool
  new_checksum : String
  now : String
  duration : Nat
deriving Repr

/-- MediaCompressor.run_handbrake: between progress lines the pause and
running flags are consulted; if either trips the encoder is terminated and
False is returned.  Otherwise the exit code decides. -/
def run_handbrake (env : CompressEnv) : Bool :=
  if env.pausedFlag ∨ ¬ env.runningFlag then false else env.encode_ok

/-- The dict returned by finalize_compression, plus a raised constructor for
the ZeroDivisionError that propagates when original_size is zero. -/
inductive FinalizeResult where
  | success (compressed_size : Nat) (reduction : ℚ) (quality_score : ℚ) (checksum : String)
  | skippedResult (reason : String) (compressed_size : Nat) (quality_score : ℚ)
  | errorResult (msg : String)
  | raised (msg : String)
deriving DecidableEq, Repr

/-- MediaCompressor.finalize_compression: validate the temp output, compute
the size reduction, run the quality validator when enabled, compare against
the thresholds, optionally verify integrity of the output, and replace the
source file. -/
def finalize_compression (cfg : Config) (env : CompressEnv) (original_size : Nat)
    (w : World) : FinalizeResult × World :=
  if ¬ w.tempExists ∨ env.temp_size = 0 then
    (.errorResult "Compression produced an empty or missing file",
     { w with tempExists := false })
  else
    let compressed_size := env.temp_size
    if original_size = 0 then
      -- compressed_size / original_size raises ZeroDivisionError, which
      -- escapes finalize_compression into the callers handler
      (.raised "ZeroDivisionError: division by zero", w)
    else
      let size_reduction : ℚ := 1 - (compressed_size : ℚ) / (original_size : ℚ)
      let quality := if cfg.quality_enabled then env.quality
                     else ⟨100, true, "none"⟩
      if size_reduction < cfg.size_reduction_threshold ∨ quality.acceptable = false then
        let reasons :=
          (if size_reduction < cfg.size_reduction_threshold
             then ["insufficient reduction"] else []) ++
          (if quality.acceptable = false then ["quality below threshold"] else [])
        (.skippedResult (String.intercalate ", " reasons) compressed_size quality.score,
         { w with tempExists := false })
      else if cfg.verify_files ∧ ¬ env.verify_temp_ok then
        (.errorResult "Compressed file integrity verification failed",
         { w with tempExists := false })
      else if ¬ env.move_ok then
        (.errorResult "Failed to replace original file", w)
      else
        (.success compressed_size size_reduction quality.score env.new_checksum,
         { w with tempExists := false, sourceReplaced := true })

/-- MediaDatabase.update_compression_time: store the observed time for the
file, then seed estimated_time for every pending row whose estimated_time is
still zero using the observed seconds-per-megabyte rate. -/
def update_compression_time (db : DB) (path : String) (actual_time : Nat) : DB :=
  let files1 := db.files.map fun r =>
    if r.file_path = path then { r with actual_time := actual_time } else r
  match files1.find? (fun r => r.file_path = path) with
  | some r =>
    if 0 < r.original_size then
      let original_size_mb : ℚ := (r.original_size : ℚ) / (1024 * 1024)
      let time_per_mb : ℚ := (actual_time : ℚ) / max 1 original_size_mb
      { db with files := files1.map fun s =>
          if s.status = .pending ∧ s.estimated_time = 0 then
            { s with estimated_time := round ((s.original_size : ℚ) * time_per_mb / (1024 * 1024)) }
          else s }
    else { db with files := files1 }
  | none => { db with files := files1 }

/-- The dict compress_file and process_compression_queue return (the fields
the claims mention). -/
structure CompressResult where
  status : String
  reason : Option String := none
deriving DecidableEq, Repr

/-- MediaCompressor.compress_file for one file: stat the source, mark
in_progress, optionally verify integrity, run the encoder with the pause and
running predicates, then finalize and record the outcome.  Every branch after
registration ends in _unregister_job, which calls update_compression_time.
Note two source facts the spec idealizes: a cancelled or failed encode does
not delete the temp output, and a finalize error leaves the record
in_progress (no update_file_status call on that branch). -/
def compress_file (cfg : Config) (env : CompressEnv) (path : String) (db : DB)
    (w : World) : CompressResult × DB × World :=
  match env.stat_original with
  | none => (⟨"error", none⟩, db, w)
  | some original_size =>
    let db := db.update_file_status path .in_progress
      { processing_started := some env.now }
    if cfg.verify_files ∧ ¬ env.verify_original_ok then
      let db := db.update_file_status path .error
        { error_message := some "Original file integrity check failed" }
      (⟨"error", none⟩, update_compression_time db path env.duration, w)
    else if ¬ run_handbrake env then
      let w := { w with tempExists := env.temp_created }
      if env.pausedFlag then
        let db := db.update_file_status path .paused {}
        (⟨"paused", none⟩, update_compression_time db path env.duration, w)
      else if ¬ env.runningFlag then
        let db := db.update_file_status path .pending {}
        (⟨"stopped", none⟩, update_compression_time db path env.duration, w)
      else
        let db := db.update_file_status path .error
          { error_message := some "HandBrake compression failed" }
        (⟨"error", none⟩, update_compression_time db path env.duration, w)
    else
      let w := { w with tempExists := env.temp_created }
      match finalize_compression cfg env original_size w with
      | (.success cs _red qs chk, w) =>
          let db := db.update_file_status path .completed
            { original_size := some original_size
              compressed_size := some cs
              compression_date := some env.now
              checksum := some chk
              content_type := some env.content_type
              quality_score := some qs
              compression_count := some 1
              actual_time := some env.duration }
          (⟨"success", none⟩, update_compression_time db path env.duration, w)
      | (.skippedResult reason _cs qs, w) =>
          let db := db.update_file_status path .skipped
            { skip_reason := some reason
              content_type := some env.content_type
              quality_score := some qs }
          (⟨"skipped", some reason⟩, update_compression_time db path env.duration, w)
      | (.errorResult msg, w) =>
          -- compress_file only handles the success and skipped results; a
          -- finalize error is returned as-is and the record stays in_progress
          (⟨"error", some msg⟩, update_compression_time db path env.duration, w)
      | (.raised msg, w) =>
          -- the outer exception handler: remove the temp output if present,
          -- record the error, unregister
          let w := { w with tempExists := false }
          let db := db.update_file_status path .error { error_message := some msg }
          (⟨"error", some msg⟩, update_compression_time db path env.duration, w)

/-- MediaCompressor.pause_compression: push every active job record to paused
and log the event. -/
def pause_compression (active : List String) (db : DB) : DB :=
  let db := active.foldl (fun d p => d.update_file_status p .paused {}) db
  db.log_system_event "compression_paused" "Compression jobs paused by user" "info"

/-- MediaCompressor.resume_compression: UPDATE processed_files SET status =
pending WHERE status = paused, then log the event. -/
def resume_compression (db : DB) : DB :=
  let db := { db with files := db.files.map fun r : FileRecord =>
      if r.status = Status.paused then { r with status := Status.pending } else r }
  db.log_system_event "compression_resumed" "Compression jobs resumed" "info"

/-- MediaCompressor.prioritize_file: set the priority and force the record to
pending. -/
def prioritize_file (db : DB) (path : String) (prio : Int) : DB :=
  let db := db.update_file_status path .pending { priority := some prio }
  db.log_system_event "file_prioritized" "File prioritized" "info"

/-- MediaCompressor.check_disk_space for the temp area: on insufficient free
space a notification is sent (send_notification logs a notification event)
and a disk_space_error event is recorded. -/
def check_disk_space (cfg : Config) (free_space_mb : ℚ) (db : DB) : Bool × DB :=
  if free_space_mb < cfg.min_free_space_mb then
    let db := db.log_system_event "notification_error" "Insufficient disk space" "error"
    (false, db.log_system_event "disk_space_error" "Insufficient disk space" "error")
  else
    (true, db)

/-- Point-in-time system readings consumed by the pre-session gates. -/
structure ResourceEnv where
  free_space_mb : ℚ
  available_memory_mb : ℚ
  cpu_percent : ℚ
deriving Repr

/-- MediaCompressor.check_system_resources: disk space first, then available
memory; CPU above 90 percent only logs a warning. -/
def check_system_resources (cfg : Config) (res : ResourceEnv) (db : DB) : Bool × DB :=
  match check_disk_space cfg res.free_space_mb db with
  | (false, db) => (false, db)
  | (true, db) =>
    if res.available_memory_mb < cfg.min_memory_mb then
      (false, db.log_system_event "resource_warning" "Low memory" "warning")
    else
      let db := if 90 < res.cpu_percent then
          db.log_system_event "resource_warning" "High CPU usage" "warning"
        else db
      (true, db)

/-- The ordering of GetFilesForCompression: priority DESC, original_size DESC
(r belongs before s). -/
def queue_order (r s : FileRecord) : Prop :=
  s.priority < r.priority ∨ (r.priority = s.priority ∧ s.original_size ≤ r.original_size)

instance : DecidableRel queue_order := fun r s => by
  unfold queue_order; infer_instance

/-- MediaDatabase.get_files_for_compression: the pending rows, ordered by
priority DESC then original_size DESC, truncated to the limit. -/
def get_files_for_compression (db : DB) (limit : Nat) : List FileRecord :=
  (((db.files.filter fun r => decide (r.status = Status.pending)).insertionSort
      queue_order).take limit)

/-- Environment for one process_compression_queue call. -/
structure QueueEnv where
  deps_ok : Bool
  within_schedule : Bool
  force_now : Bool
  limit : Option Nat
  resources : ResourceEnv
  file_envs : String → CompressEnv

/-- The per-file loop of process_compression_queue: submit compress_file for
each fetched record and accumulate the session counters. -/
def run_compression_jobs (cfg : Config) (env : QueueEnv) :
    List FileRecord → DB → World → Nat → Nat → Nat → Nat →
    DB × World × Nat × Nat × Nat × Nat
  | [], db, w, processed, errs, orig, comp => (db, w, processed, errs, orig, comp)
  | f :: rest, db, w, processed, errs, orig, comp =>
    match compress_file cfg (env.file_envs f.file_path) f.file_path db w with
    | (res, db, w) =>
      if res.status = "success" then
        match (env.file_envs f.file_path).stat_original with
        | some os =>
          run_compression_jobs cfg env rest db w (processed + 1) errs
            (orig + os) (comp + (env.file_envs f.file_path).temp_size)
        | none =>
          run_compression_jobs cfg env rest db w (processed + 1) errs orig comp
      else if res.status = "error" then
        run_compression_jobs cfg env rest db w processed (errs + 1) orig comp
      else
        run_compression_jobs cfg env rest db w processed errs orig comp

/-- MediaCompressor.process_compression_queue: dependency gate, schedule gate,
resource gate, then fetch the pending queue and run it, finally recording the
session statistics row when anything was processed or errored. -/
def process_compression_queue (cfg : Config) (env : QueueEnv) (db : DB) (w : World) :
    CompressResult × DB × World :=
  if ¬ env.deps_ok then (⟨"error", none⟩, db, w)
  else if ¬ env.force_now ∧ ¬ env.within_schedule then
    (⟨"skipped", some "Outside schedule window"⟩, db, w)
  else
    match check_system_resources cfg env.resources db with
    | (false, db) => (⟨"skipped", some "Insufficient system resources"⟩, db, w)
    | (true, db) =>
      let files := get_files_for_compression db (env.limit.getD cfg.compression_queue_size)
      if files.isEmpty then (⟨"completed", none⟩, db, w)
      else
        match run_compression_jobs cfg env files db w 0 0 0 0 with
        | (db, w, processed, errs, orig, comp) =>
          if 0 < processed ∨ 0 < errs then
            let savings : ℚ := if 0 < orig then (1 - (comp : ℚ) / (orig : ℚ)) * 100 else 0
            let db := { db with stats := db.stats ++ [⟨processed, errs, orig, comp, savings⟩] }
            (⟨"completed", none⟩, db, w)
          else (⟨"completed", none⟩, db, w)

/-! ## Scanner (media_scanner.py) -/

/-- The file_info dict handed to MediaDatabase.add_new_file. -/
structure NewFileInfo where
  file_path : String
  size : Nat
  checksum : String
  status : Option Status
  now : String
deriving Repr

/-- A fresh processed_files row as the INSERT of add_new_file creates it:
first_seen and last_checked stamped now, the given checksum and status
(defaulting to new when the caller supplies none), every other column NULL or
its schema default. -/
def freshRecord (info : NewFileInfo) : FileRecord where
  file_path := info.file_path
  original_size := info.size
  compressed_size := none
  compression_date := none
  queued_date := none
  processing_started := none
  last_checked_date := some info.now
  checksum := info.checksum
  content_type := none
  quality_score := none
  status := info.status.getD Status.new
  error_message := none
  skip_reason := none
  compression_count := 0
  priority := 0
  estimated_time := 0
  actual_time := 0

/-- MediaDatabase.add_new_file: INSERT the fresh row; on a duplicate path the
UNIQUE constraint fires and the handler falls through to update_file_status
with last_checked_date and checksum. -/
def DB.add_new_file (db : DB) (info : NewFileInfo) : DB :=
  if db.files.any fun r => r.file_path = info.file_path then
    db.update_file_status info.file_path (info.status.getD Status.new)
      { last_checked_date := some info.now, checksum := some info.checksum }
  else
    { db with files := db.files ++ [freshRecord info] }

/-- One queued entry of the scanners files_to_update batch.  The
unchanged-file refresh entries carry no status key. -/
structure BatchEntry where
  file_path : String
  status : Option Status
  update : FileUpdate

/-- MediaDatabase.bulk_update_statuses: one transaction over the batch.  Each
entry is read as file_info with a mandatory status key; an entry without one
raises KeyError inside the transaction, which is rolled back whole, leaving
the catalog unchanged. -/
def bulk_update_statuses (db : DB) (batch : List BatchEntry) : DB :=
  if batch.any fun e => e.status = none then db
  else batch.foldl
    (fun d e => d.update_file_status e.file_path (e.status.getD Status.new) e.update) db

/-- Python str.endswith, stated on the character sequences of the strings. -/
def ends_with (s t : String) : Bool :=
  decide (s.data.drop (s.data.length - t.data.length) = t.data)

/-- MediaScanner.should_process_file: allowed extension, then the minimum-size
gate; a stat failure excludes the file.  The source test is
file_size < min_size_mb * 1024 * 1024 implies exclude, so a file of exactly
min_size_mb megabytes passes. -/
def should_process_file (cfg : Config) (path_lower : String) (stat_size : Option Nat) :
    Bool :=
  if ¬ cfg.extensions.any fun ext => ends_with path_lower ext then false
  else
    match stat_size with
    | none => false
    | some file_size =>
      if file_size < cfg.min_size_mb * 1024 * 1024 then false else true

/-- What the scanner observes about one candidate file. -/
structure ScanFileEnv where
  size : Nat
  checksum : String
  now : String
deriving Repr

/-- The per-file body of MediaScanner.scan_directory_async, after
should_process_file has accepted the file: look the path up; brand-new files
are added immediately with status pending; an existing path whose size and
fingerprint changed queues a needs_reprocessing batch entry; an unchanged
path in a terminal status queues a last_checked-only refresh entry. -/
def scan_file (env : ScanFileEnv) (path : String) (db : DB)
    (batch : List BatchEntry) : DB × List BatchEntry :=
  match db.files.find? fun r => r.file_path = path with
  | none =>
      (db.add_new_file ⟨path, env.size, env.checksum, some Status.pending, env.now⟩,
       batch)
  | some r =>
      if env.size ≠ r.original_size then
        if env.checksum ≠ r.checksum then
          (db, batch ++ [⟨path, some Status.needs_reprocessing,
             { last_checked_date := some env.now
               checksum := some env.checksum
               original_size := some env.size }⟩])
        else (db, batch)
      else
        if r.status = Status.error ∨ r.status = Status.completed then
          (db, batch ++ [⟨path, none, { last_checked_date := some env.now }⟩])
        else (db, batch)

/-- The end-of-scan bulk promotion in scan_all_directories_async: UPDATE
processed_files SET status = pending, queued_date = now WHERE status IN
(new, needs_reprocessing). -/
def promote_scanned_files (now : String) (db : DB) : DB :=
  { db with files := db.files.map fun r : FileRecord =>
      if r.status = Status.new ∨ r.status = Status.needs_reprocessing then
        { r with status := Status.pending, queued_date := some now }
      else r }

/-! ## Fingerprint (media_scanner.py and file_processor.py, get_file_checksum) -/

/-- Files below this size are hashed whole. -/
def smallFileLimit : Nat := 8 * 1024 * 1024

/-- The slice sizes read from larger files. -/
def chunkSize : Nat := 4 * 1024 * 1024

/-- get_file_checksum, parameterized by the digest function (md5 hexdigest in
the source): a file below 8 MiB is hashed whole; otherwise the digest is fed
the first 4 MiB followed by the bytes from 4 MiB before the end (the seek to
-4 MiB from SEEK_END) to the end. -/
def get_file_checksum (digest : List Nat → Nat) (file : List Nat) : Nat :=
  if file.length < smallFileLimit then digest file
  else digest (file.take chunkSize ++ file.drop (file.length - chunkSize))

/-! ## Catalog repair (media_database.py, repair_database) -/

/-- What repair_database finds on disk. -/
structure RepairEnv where
  epoch : Nat
  db_file_exists : Bool
  backup_exists : Bool
  restored_db_verifies : Bool
deriving DecidableEq, Repr

/-- The observable outcome of one repair_database call: its return value and
the side effects on disk and in the event log. -/
structure RepairOutcome where
  success : Bool
  corrupt_renamed : Bool
  restored_from_backup : Bool
  rebuilt : Bool
  events : List Event
deriving DecidableEq, Repr

/-- The database_rebuilt event the rebuild path logs. -/
def rebuiltEvent : Event :=
  ⟨"database_rebuilt", "Database was rebuilt due to corruption", "error"⟩

/-- MediaDatabase.repair_database.  When a backup exists, the corrupt store is
renamed aside to a name interpolating int(time.time()) and the backup copied
over, then verified with a count query; on verification failure, and when no
backup exists, the store is rebuilt from scratch and database_rebuilt logged.
Every exception, including the AttributeError that time.time() raises under
the binding of media_database.py line 8, is caught by the enclosing handler,
which returns False with no further effects. -/
def repair_database (binding : TimeName) (env : RepairEnv) : RepairOutcome :=
  if env.backup_exists then
    if env.db_file_exists then
      match call_time_time binding env.epoch with
      | .error _ => ⟨false, false, false, false, []⟩
      | .ok _ =>
          -- corrupt store renamed aside, backup copied over, count query run
          if env.restored_db_verifies then ⟨true, true, true, false, []⟩
          else
            -- the restored store is also corrupt: fall through to the rebuild
            -- path; the store file exists again (just copied), so the rename
            -- there interpolates int(time.time()) again
            match call_time_time binding env.epoch with
            | .error _ => ⟨false, true, true, false, []⟩
            | .ok _ => ⟨true, true, true, true, [rebuiltEvent]⟩
    else
      -- no live store file: nothing to rename; copy the backup and verify
      if env.restored_db_verifies then ⟨true, false, true, false, []⟩
      else
        match call_time_time binding env.epoch with
        | .error _ => ⟨false, false, true, false, []⟩
        | .ok _ => ⟨true, false, true, true, [rebuiltEvent]⟩
  else
    -- no backup: rebuild from scratch, renaming the corrupt store when present
    if env.db_file_exists then
      match call_time_time binding env.epoch with
      | .error _ => ⟨false, false, false, false, []⟩
      | .ok _ => ⟨true, true, false, true, [rebuiltEvent]⟩
    else ⟨true, false, false, true, [rebuiltEvent]⟩

/-! ## Orchestrator shutdown (manager.py, _handle_shutdown) -/

/-- The methods the MediaScanner class of media_scanner.py defines (besides
the dunder constructor). -/
def mediaScannerMethods : List String :=
  ["_get_file_checksum", "should_process_file", "scan_directory_async",
   "scan_all_directories_async", "run_scan", "get_scan_status"]

/-- The signals _handle_shutdown is registered for. -/
inductive Signal where
  | sigint
  | sigterm
deriving DecidableEq, Repr

/-- The manager state the shutdown handler touches. -/
structure ManagerState where
  shutdown_requested : Bool
  compressor_running : Bool
  scan_in_progress : Bool
  compression_in_progress : Bool
  final_backup_done : Bool
  has_in_daemon_attr : Bool
  in_daemon_mode : Bool
  exit_code : Option Nat
deriving DecidableEq, Repr

/-- MediaCompressionManager._handle_shutdown: set the shutdown flag, stop the
compressor (its running flag goes false), then call self.scanner.stop_scan().
MediaScanner defines no such method, so the attribute lookup raises; the
handler has no try block, so the AttributeError propagates and nothing after
that line runs.  The dead remainder (cleanup with final backup, daemon-flag
reset, the exit-1 check with its and-or precedence) is modelled faithfully
under the guard. -/
def handle_shutdown (sig : Signal) (st : ManagerState) :
    Option String × ManagerState :=
  let st := { st with shutdown_requested := true }
  let st := { st with compressor_running := false }
  if "stop_scan" ∈ mediaScannerMethods then
    let st := { st with final_backup_done := true }
    let st := { st with scan_in_progress := false, compression_in_progress := false }
    if sig = Signal.sigint ∧ ¬ st.has_in_daemon_attr then
      (none, { st with exit_code := some 1 })
    else if ¬ st.has_in_daemon_attr then
      (some "AttributeError: no attribute in_daemon_mode", st)
    else if ¬ st.in_daemon_mode then
      (none, { st with exit_code := some 1 })
    else (none, st)
  else
    (some "AttributeError: MediaScanner object has no attribute stop_scan", st)

/-! ## Pipeline state predicates and concrete fixtures -/

/-- MediaCompressor.stop_compression: flips the running flag (held outside
the catalog) and logs the event; no row is touched. -/
def stop_compression (db : DB) : DB :=
  db.log_system_event "compression_stopped" "Compression jobs stopped by user" "info"

/-- The completed-record invariant of the claim: a completed row has a
strictly positive compressed_size, a non-null compression_date, and
compressed_size at most original_size times (1 - threshold). -/
def completed_inv (th : ℚ) (r : FileRecord) : Prop :=
  r.status = Status.completed →
    (∃ cs, r.compressed_size = some cs ∧ 0 < cs ∧
      (cs : ℚ) ≤ (r.original_size : ℚ) * (1 - th)) ∧
    r.compression_date ≠ none

/-- The invariant over the whole catalog. -/
def db_inv (th : ℚ) (db : DB) : Prop := ∀ r ∈ db.files, completed_inv th r

/-- The DEFAULT_CONFIG values for the keys this embedding carries. -/
def cfgDefault : Config where
  extensions := [".mp4", ".mkv", ".avi", ".m4v"]
  min_size_mb := 200
  size_reduction_threshold := 1/5
  quality_enabled := true
  quality_threshold := 90
  verify_files := true
  min_free_space_mb := 1000
  min_memory_mb := 500
  compression_queue_size := 1000

/-- A catalog row with the given path, size, status and compression count and
every other column at its schema default. -/
def sampleRecord (path : String) (size : Nat) (st : Status) (cnt : Nat) : FileRecord where
  file_path := path
  original_size := size
  compressed_size := none
  compression_date := none
  queued_date := none
  processing_started := none
  last_checked_date := none
  checksum := "c0"
  content_type := none
  quality_score := none
  status := st
  error_message := none
  skip_reason := none
  compression_count := cnt
  priority := 0
  estimated_time := 0
  actual_time := 0

/-- An encode cancelled by the pause flag: the flag trips at the first
progress line, after the encoder has created (partially written) the temp
output. -/
def envPausedCancel : CompressEnv where
  stat_original := some 500
  verify_original_ok := true
  content_type := "live_action"
  pausedFlag := true
  runningFlag := true
  encode_ok := true
  temp_created := true
  temp_size := 300
  quality := ⟨92, true, "vmaf"⟩
  verify_temp_ok := true
  move_ok := true
  new_checksum := "c2"
  now := "T1"
  duration := 60

/-- An encode cancelled by the stop flag (running goes false). -/
def envStoppedCancel : CompressEnv where
  stat_original := some 500
  verify_original_ok := true
  content_type := "live_action"
  pausedFlag := false
  runningFlag := false
  encode_ok := true
  temp_created := true
  temp_size := 300
  quality := ⟨92, true, "vmaf"⟩
  verify_temp_ok := true
  move_ok := true
  new_checksum := "c2"
  now := "T1"
  duration := 60

/-- A fully successful encode of a previously compressed file: the source is
500 bytes, the encoder produces a 350-byte output (30 percent reduction,
above the default 20 percent threshold), the validator accepts with score 92,
and the replacement succeeds. -/
def envSuccess : CompressEnv where
  stat_original := some 500
  verify_original_ok := true
  content_type := "live_action"
  pausedFlag := false
  runningFlag := true
  encode_ok := true
  temp_created := true
  temp_size := 350
  quality := ⟨92, true, "vmaf"⟩
  verify_temp_ok := true
  move_ok := true
  new_checksum := "c2"
  now := "T2"
  duration := 60

/-- A catalog holding one pending record for a.mkv. -/
def dbOne : DB := ⟨[sampleRecord "a.mkv" 500 Status.pending 0], [], []⟩

/-- A catalog holding b.mkv already compressed once (compression_count 1) and
re-queued as pending after a later modification. -/
def dbRecompress : DB := ⟨[sampleRecord "b.mkv" 500 Status.pending 1], [], []⟩

/-- The environment of a session attempted with an empty temp volume: forced
past the schedule gate, dependencies present, zero megabytes free. -/
def envQueueLowDisk : QueueEnv where
  deps_ok := true
  within_schedule := false
  force_now := true
  limit := none
  resources := ⟨0, 1000, 0⟩
  file_envs := fun _ => envSuccess

/-! ## Theorems about the claims -/

/-- C3: the claim says repair_database, on an unreadable live store with a
backup present, renames the corrupt store aside with a timestamp, copies the
backup over, verifies it with a count query and returns success.  In the code
the name time is bound to the class datetime.time (media_database.py line 8),
so the very first step, interpolating int(time.time()) into the rename
target, raises AttributeError; the enclosing handler returns False with the
corrupt store still in place, nothing renamed, nothing restored and nothing
logged.  The second conjunct shows the intended binding (the time module)
would have produced exactly the behaviour the claim describes. -/
theorem C3_repair_restore_never_runs :
    repair_database mediaDatabaseTimeName ⟨0, true, true, true⟩ =
      ⟨false, false, false, false, []⟩ ∧
    repair_database TimeName.timeModule ⟨0, true, true, true⟩ =
      ⟨true, true, true, false, []⟩ := by
  constructor <;> rfl

/-- C7: the claim says the shutdown handler stops the pipeline, stops the
scanner, performs a final catalog backup and exits with code 1.  The handler
does set the shutdown flag and stop the compressor, but the next line calls
self.scanner.stop_scan(), a method MediaScanner does not define; the
AttributeError propagates out of the handler, so the cleanup (final backup)
and the exit never run.  Both signals hit the same failure. -/
theorem C7_shutdown_handler_raises :
    handle_shutdown Signal.sigint ⟨false, true, true, true, false, false, false, none⟩ =
      (some "AttributeError: MediaScanner object has no attribute stop_scan",
       ⟨true, false, true, true, false, false, false, none⟩) ∧
    handle_shutdown Signal.sigterm ⟨false, true, true, true, false, false, false, none⟩ =
      (some "AttributeError: MediaScanner object has no attribute stop_scan",
       ⟨true, false, true, true, false, false, false, none⟩) := by
  constructor <;> rfl

/-- C9 counterexample: the claim says a file of exactly min_size_mb megabytes
is excluded by a strict inequality.  Under the default configuration
(min_size_mb = 200) a 200 MiB file with an allowed extension is accepted: the
source gate excludes only files strictly below the minimum. -/
theorem C9_exact_min_size_accepted :
    should_process_file cfgDefault "movie.mkv" (some (200 * 1024 * 1024)) = true := by
  decide

/-- C9 amended: for a candidate with an allowed extension, the size gate of
should_process_file is inclusive: the file is processed iff its size is at
least min_size_mb megabytes, so a file of exactly min_size_mb megabytes is
included, not excluded; a stat failure excludes the file. -/
theorem C9_min_size_gate_is_inclusive (cfg : Config) (p : String) (n : Nat)
    (hext : (cfg.extensions.any fun ext => ends_with p ext) = true) :
    (should_process_file cfg p (some n) = true ↔ cfg.min_size_mb * 1024 * 1024 ≤ n) ∧
    should_process_file cfg p none = false := by
  have h1 : should_process_file cfg p (some n) =
      if n < cfg.min_size_mb * 1024 * 1024 then false else true := by
    simp [should_process_file, hext]
  constructor
  · rw [h1]
    by_cases hlt : n < cfg.min_size_mb * 1024 * 1024
    · simp only [hlt, if_true]
      constructor
      · intro h; exact absurd h (by simp)
      · intro h; omega
    · simp only [hlt, if_false]
      constructor
      · intro _; omega
      · intro _; trivial
  · simp [should_process_file]

/-- C9 witness: the amended statement applied at the default configuration
and a 200 MiB file named movie.mkv. -/
theorem C9_min_size_gate_witness :
    ((cfgDefault.extensions.any fun ext => ends_with "movie.mkv" ext) = true) ∧
    ((should_process_file cfgDefault "movie.mkv" (some (200 * 1024 * 1024)) = true ↔
        cfgDefault.min_size_mb * 1024 * 1024 ≤ 200 * 1024 * 1024) ∧
      should_process_file cfgDefault "movie.mkv" none = false) :=
  ⟨by decide, C9_min_size_gate_is_inclusive cfgDefault "movie.mkv" (200 * 1024 * 1024)
    (by decide)⟩

/-- C5 counterexample: the claim says a file first seen by the Scanner gets a
record with status new, pending being reachable only through the end-of-scan
promotion.  Scanning a brand-new file against an empty catalog creates its
record with status pending directly: scan_directory_async passes
STATUS_PENDING in the file_info it hands to add_new_file. -/
theorem C5_new_file_created_pending :
    ((scan_file ⟨1000, "abc", "T0"⟩ "new.mkv" ⟨[], [], []⟩ []).1.files.map
        fun r => r.status) = [Status.pending] ∧
    Status.pending ≠ Status.new := by
  constructor
  · rfl
  · decide

/-- C5 amended: a file first seen by the Scanner is recorded with status
pending immediately (add_new_file defaults to new, but the scanner passes
pending), so record creation is itself a path to pending; the end-of-scan
promotion is still the transition that moves every new or needs_reprocessing
row to pending and stamps queued_date, leaving all other rows untouched. -/
theorem C5_scanner_writes_pending_directly (env : ScanFileEnv) (path : String)
    (db : DB) (batch : List BatchEntry)
    (habsent : db.files.find? (fun r => r.file_path = path) = none) :
    ((scan_file env path db batch).1.files =
      db.files ++ [freshRecord ⟨path, env.size, env.checksum, some Status.pending, env.now⟩]) ∧
    (freshRecord ⟨path, env.size, env.checksum, some Status.pending, env.now⟩).status =
      Status.pending ∧
    (scan_file env path db batch).2 = batch ∧
    (∀ now2 (db2 : DB) (r : FileRecord), r ∈ db2.files →
      (r.status = Status.new ∨ r.status = Status.needs_reprocessing) →
      { r with status := Status.pending, queued_date := some now2 } ∈
        (promote_scanned_files now2 db2).files) ∧
    (∀ now2 (db2 : DB) (r : FileRecord), r ∈ db2.files →
      ¬ (r.status = Status.new ∨ r.status = Status.needs_reprocessing) →
      r ∈ (promote_scanned_files now2 db2).files) := by
  have hall : ∀ r ∈ db.files, ¬ (r.file_path = path) := by
    intro r hr
    have := List.find?_eq_none.mp habsent r hr
    simpa using this
  have hany : (db.files.any fun r => r.file_path = path) = false := by
    rw [List.any_eq_false]
    intro r hr
    simpa using hall r hr
  refine ⟨?_, rfl, ?_, ?_, ?_⟩
  · simp [scan_file, habsent, DB.add_new_file, hany]
  · simp [scan_file, habsent, DB.add_new_file, hany]
  · intro now2 db2 r hr hst
    have : ({ r with status := Status.pending, queued_date := some now2 }) =
        (if r.status = Status.new ∨ r.status = Status.needs_reprocessing then
          { r with status := Status.pending, queued_date := some now2 } else r) := by
      simp [hst]
    rw [this, promote_scanned_files]
    exact List.mem_map_of_mem _ hr
  · intro now2 db2 r hr hst
    have : r = (if r.status = Status.new ∨ r.status = Status.needs_reprocessing then
        { r with status := Status.pending, queued_date := some now2 } else r) := by
      simp [hst]
    rw [this, promote_scanned_files]
    exact List.mem_map_of_mem _ hr

/-- C5 witness: the amended statement applied to a brand-new file against an
empty catalog. -/
theorem C5_scanner_writes_pending_witness :
    ((⟨[], [], []⟩ : DB).files.find? (fun r => r.file_path = "new.mkv") = none) ∧
    (((scan_file ⟨1000, "abc", "T0"⟩ "new.mkv" ⟨[], [], []⟩ []).1.files =
      [] ++ [freshRecord ⟨"new.mkv", 1000, "abc", some Status.pending, "T0"⟩]) ∧
    (freshRecord ⟨"new.mkv", 1000, "abc", some Status.pending, "T0"⟩).status =
      Status.pending ∧
    (scan_file ⟨1000, "abc", "T0"⟩ "new.mkv" ⟨[], [], []⟩ []).2 = [] ∧
    (∀ now2 (db2 : DB) (r : FileRecord), r ∈ db2.files →
      (r.status = Status.new ∨ r.status = Status.needs_reprocessing) →
      { r with status := Status.pending, queued_date := some now2 } ∈
        (promote_scanned_files now2 db2).files) ∧
    (∀ now2 (db2 : DB) (r : FileRecord), r ∈ db2.files →
      ¬ (r.status = Status.new ∨ r.status = Status.needs_reprocessing) →
      r ∈ (promote_scanned_files now2 db2).files)) :=
  ⟨rfl, C5_scanner_writes_pending_directly ⟨1000, "abc", "T0"⟩ "new.mkv" ⟨[], [], []⟩ [] rfl⟩

/-- The binding of quality_validator.py makes time.time() raise. -/
theorem call_time_time_qv_raises (epoch : Nat) :
    call_time_time qualityValidatorTimeName epoch =
      Except.error "AttributeError: type object datetime.time has no attribute time" := by
  rfl

/-- Under the datetime.time binding every iteration of the method loop fails
before any metric is parsed, so the loop yields nothing. -/
theorem run_quality_methods_none (env : ValidateEnv) (ms : List String) :
    run_quality_methods qualityValidatorTimeName env ms = none := by
  induction ms with
  | nil => rfl
  | cons m rest ih =>
      simp [run_quality_methods, try_quality_method, call_time_time_qv_raises, ih]

/-- C10: under the binding of quality_validator.py line 7 the name time is
the class datetime.time, so building the per-method result-file name raises
AttributeError before any VMAF, SSIM or PSNR metric is parsed.  Every call of
validate_compression therefore ends in the benefit-of-the-doubt sentinel
(score 100, method none) or the score-85 fallback, and the outer handler
value is the score-80 error fallback; in every case acceptable is true, so
quality validation can never cause a file to be rejected. -/
theorem C10_quality_validation_never_rejects (env : ValidateEnv) :
    (validate_compression qualityValidatorTimeName env).acceptable = true ∧
    (validate_compression qualityValidatorTimeName env = ⟨100, true, "none"⟩ ∨
      validate_compression qualityValidatorTimeName env = ⟨85, true, "fallback"⟩) ∧
    validate_compression_error.acceptable = true := by
  have hv : validate_compression qualityValidatorTimeName env = ⟨100, true, "none"⟩ ∨
      validate_compression qualityValidatorTimeName env = ⟨85, true, "fallback"⟩ := by
    unfold validate_compression
    split
    · exact Or.inl rfl
    · split
      · exact Or.inl rfl
      · split
        · exact Or.inl rfl
        · rw [run_quality_methods_none]
          exact Or.inr rfl
  refine ⟨?_, hv, rfl⟩
  rcases hv with h | h <;> rw [h]

/-- C8: a file of exactly 8 MiB takes the first-4-MiB-plus-last-4-MiB path of
get_file_checksum, but those two slices tile the file exactly, so its
fingerprint equals the digest of the whole file; a file of 8 MiB plus one
byte is fingerprinted as the digest of the first 4 MiB concatenated with the
last 4 MiB; and both paths are pure functions of the content, so repeated
calls over unchanged content return the same value. -/
theorem C8_checksum_boundary (digest : List Nat → Nat) (f g : List Nat)
    (hf : f.length = smallFileLimit) (hg : g.length = smallFileLimit + 1) :
    get_file_checksum digest f = digest f ∧
    get_file_checksum digest g =
      digest (g.take chunkSize ++ g.drop (g.length - chunkSize)) ∧
    (∀ f2, f2 = f → get_file_checksum digest f2 = get_file_checksum digest f) ∧
    (∀ g2, g2 = g → get_file_checksum digest g2 = get_file_checksum digest g) := by
  refine ⟨?_, ?_, ?_, ?_⟩
  · unfold get_file_checksum
    rw [hf]
    have hlt : ¬ smallFileLimit < smallFileLimit := lt_irrefl _
    rw [if_neg hlt]
    have hsub : smallFileLimit - chunkSize = chunkSize := by
      norm_num [smallFileLimit, chunkSize]
    rw [hsub, List.take_append_drop]
  · unfold get_file_checksum
    rw [hg]
    have hlt : ¬ smallFileLimit + 1 < smallFileLimit := by omega
    rw [if_neg hlt]
  · intro f2 h2; rw [h2]
  · intro g2 h2; rw [h2]

/-- C8 witness: the boundary statement applied to an 8 MiB file of zero bytes
and an 8 MiB + 1 file of zero bytes, with the list-sum as the digest. -/
theorem C8_checksum_boundary_witness :
    (List.replicate smallFileLimit 0).length = smallFileLimit ∧
    (List.replicate (smallFileLimit + 1) 0).length = smallFileLimit + 1 ∧
    (get_file_checksum List.sum (List.replicate smallFileLimit 0) =
        List.sum (List.replicate smallFileLimit 0) ∧
      get_file_checksum List.sum (List.replicate (smallFileLimit + 1) 0) =
        List.sum ((List.replicate (smallFileLimit + 1) 0).take chunkSize ++
          (List.replicate (smallFileLimit + 1) 0).drop
            ((List.replicate (smallFileLimit + 1) 0).length - chunkSize)) ∧
      (∀ f2, f2 = List.replicate smallFileLimit 0 →
        get_file_checksum List.sum f2 =
          get_file_checksum List.sum (List.replicate smallFileLimit 0)) ∧
      (∀ g2, g2 = List.replicate (smallFileLimit + 1) 0 →
        get_file_checksum List.sum g2 =
          get_file_checksum List.sum (List.replicate (smallFileLimit + 1) 0))) :=
  ⟨by simp, by simp,
   C8_checksum_boundary List.sum (List.replicate smallFileLimit 0)
     (List.replicate (smallFileLimit + 1) 0) (by simp) (by simp)⟩

/-- C2 counterexample: the claim says a cancelled compression deletes the
temporary output file before returning.  Pausing during the encode of a.mkv
does set the record to paused, but the temp output the encoder created is
still on disk when compress_file returns: no branch of the cancellation path
removes it. -/
theorem C2_cancelled_encode_keeps_temp :
    ((compress_file cfgDefault envPausedCancel "a.mkv" dbOne ⟨false, false⟩).2.2.tempExists
      = true) ∧
    (((compress_file cfgDefault envPausedCancel "a.mkv" dbOne ⟨false, false⟩).2.1.files.map
      fun r => r.status) = [Status.paused]) ∧
    ((compress_file cfgDefault envPausedCancel "a.mkv" dbOne ⟨false, false⟩).1.status
      = "paused") := by
  refine ⟨rfl, rfl, rfl⟩

/-- C2 amended: when the pause predicate trips during encoding, compress_file
sets the record to paused and returns with result paused; when the
stop/running predicate trips, it sets the record back to pending and returns
with result stopped.  In both cases the temporary output is left exactly as
the terminated encoder left it: tempExists becomes temp_created and no branch
deletes the file. -/
theorem C2_cancel_sets_status_keeps_temp (cfg : Config) (env1 env2 : CompressEnv)
    (path : String) (db : DB) (w : World) (os1 os2 : Nat)
    (h1 : env1.stat_original = some os1)
    (hv1 : cfg.verify_files = false ∨ env1.verify_original_ok = true)
    (hp1 : env1.pausedFlag = true)
    (h2 : env2.stat_original = some os2)
    (hv2 : cfg.verify_files = false ∨ env2.verify_original_ok = true)
    (hp2 : env2.pausedFlag = false) (hr2 : env2.runningFlag = false) :
    compress_file cfg env1 path db w =
      (⟨"paused", none⟩,
       update_compression_time
         ((db.update_file_status path Status.in_progress
             { processing_started := some env1.now }).update_file_status
           path Status.paused {})
         path env1.duration,
       { w with tempExists := env1.temp_created }) ∧
    compress_file cfg env2 path db w =
      (⟨"stopped", none⟩,
       update_compression_time
         ((db.update_file_status path Status.in_progress
             { processing_started := some env2.now }).update_file_status
           path Status.pending {})
         path env2.duration,
       { w with tempExists := env2.temp_created }) := by
  constructor
  · unfold compress_file
    rw [h1]
    have hver : ¬ (cfg.verify_files = true ∧ ¬ env1.verify_original_ok = true) := by
      rcases hv1 with h | h <;> simp [h]
    have hhb : run_handbrake env1 = false := by
      simp [run_handbrake, hp1]
    simp [hver, hhb, hp1]
    intro h
    rcases hv1 with h' | h'
    · exact absurd h (by simp [h'])
    · exact h'
  · unfold compress_file
    rw [h2]
    have hver : ¬ (cfg.verify_files = true ∧ ¬ env2.verify_original_ok = true) := by
      rcases hv2 with h | h <;> simp [h]
    have hhb : run_handbrake env2 = false := by
      simp [run_handbrake, hr2]
    simp [hver, hhb, hp2, hr2]
    intro h
    rcases hv2 with h' | h'
    · exact absurd h (by simp [h'])
    · exact h'

/-- C2 witness: the amended cancellation statement applied to a concrete
paused encode and a concrete stopped encode of a.mkv. -/
theorem C2_cancel_sets_status_keeps_temp_witness :
    envPausedCancel.pausedFlag = true ∧
    envStoppedCancel.pausedFlag = false ∧
    envStoppedCancel.runningFlag = false ∧
    (compress_file cfgDefault envPausedCancel "a.mkv" dbOne ⟨false, false⟩ =
      (⟨"paused", none⟩,
       update_compression_time
         ((dbOne.update_file_status "a.mkv" Status.in_progress
             { processing_started := some envPausedCancel.now }).update_file_status
           "a.mkv" Status.paused {})
         "a.mkv" envPausedCancel.duration,
       { (⟨false, false⟩ : World) with tempExists := envPausedCancel.temp_created }) ∧
    compress_file cfgDefault envStoppedCancel "a.mkv" dbOne ⟨false, false⟩ =
      (⟨"stopped", none⟩,
       update_compression_time
         ((dbOne.update_file_status "a.mkv" Status.in_progress
             { processing_started := some envStoppedCancel.now }).update_file_status
           "a.mkv" Status.pending {})
         "a.mkv" envStoppedCancel.duration,
       { (⟨false, false⟩ : World) with tempExists := envStoppedCancel.temp_created })) :=
  ⟨rfl, rfl, rfl,
   C2_cancel_sets_status_keeps_temp cfgDefault envPausedCancel envStoppedCancel "a.mkv"
     dbOne ⟨false, false⟩ 500 500 rfl (Or.inr rfl) rfl rfl (Or.inr rfl) rfl rfl⟩

/-- The success path of compress_file, as one equation: when the stat
succeeds, the integrity gate passes, neither cancellation flag trips, the
encoder succeeds, the temp output is present and non-empty, the reduction
meets the threshold, the quality verdict is acceptable, the output integrity
gate passes and the replacement succeeds, the call marks the record completed
with the recorded fields and reports success. -/
theorem compress_file_success_eq (cfg : Config) (env : CompressEnv) (path : String)
    (db : DB) (w : World) (os : Nat)
    (h1 : env.stat_original = some os)
    (hv : cfg.verify_files = false ∨ env.verify_original_ok = true)
    (hp : env.pausedFlag = false) (hr : env.runningFlag = true)
    (he : env.encode_ok = true) (htc : env.temp_created = true)
    (hts : env.temp_size ≠ 0) (hos : os ≠ 0)
    (hred : ¬ (1 - (env.temp_size : ℚ) / (os : ℚ) < cfg.size_reduction_threshold))
    (hacc : (if cfg.quality_enabled then env.quality
               else ⟨100, true, "none"⟩ : QualityResult).acceptable = true)
    (hvt : cfg.verify_files = false ∨ env.verify_temp_ok = true)
    (hm : env.move_ok = true) :
    compress_file cfg env path db w =
      (⟨"success", none⟩,
       update_compression_time
         ((db.update_file_status path Status.in_progress
             { processing_started := some env.now }).update_file_status
           path Status.completed
           { original_size := some os
             compressed_size := some env.temp_size
             compression_date := some env.now
             checksum := some env.new_checksum
             content_type := some env.content_type
             quality_score := some (if cfg.quality_enabled then env.quality
               else ⟨100, true, "none"⟩ : QualityResult).score
             compression_count := some 1
             actual_time := some env.duration })
         path env.duration,
       { w with tempExists := false, sourceReplaced := true }) := by
  have hver : ¬ (cfg.verify_files = true ∧ ¬ env.verify_original_ok = true) := by
    rcases hv with h | h <;> simp [h]
  have hhb : run_handbrake env = true := by
    simp [run_handbrake, hp, hr, he]
  have hfin : finalize_compression cfg env os { w with tempExists := env.temp_created } =
      (.success env.temp_size (1 - (env.temp_size : ℚ) / (os : ℚ))
        (if cfg.quality_enabled then env.quality else ⟨100, true, "none"⟩ : QualityResult).score
        env.new_checksum,
       { w with tempExists := false, sourceReplaced := true }) := by
    unfold finalize_compression
    rw [htc]
    have hc1 : ¬ (¬ (true : Bool) = true ∨ env.temp_size = 0) := by simp [hts]
    rw [if_neg hc1, if_neg hos]
    have hc2 : ¬ (1 - (env.temp_size : ℚ) / (os : ℚ) < cfg.size_reduction_threshold ∨
        (if cfg.quality_enabled then env.quality
          else ⟨100, true, "none"⟩ : QualityResult).acceptable = false) := by
      rintro (h | h)
      · exact hred h
      · rw [hacc] at h; cases h
    rw [if_neg hc2]
    have hc3 : ¬ (cfg.verify_files = true ∧ ¬ env.verify_temp_ok = true) := by
      rcases hvt with h | h <;> simp [h]
    rw [if_neg hc3]
    have hc4 : ¬ (¬ env.move_ok = true) := by simp [hm]
    rw [if_neg hc4]
  simp only [compress_file, h1]
  rw [if_neg hver, hhb]
  rw [if_neg (show ¬ ¬ (true : Bool) = true by simp)]
  simp only [hfin]

/-- C4: the claim (and the spec invariant) says a successful finalize
increments compression_count, so a reprocessed file reaches count 2, and sets
original_size to the size of the newly replaced on-disk file.  The code
passes compression_count=1 in the update, which overwrites rather than
increments (the count stays 1 after the second success), and passes the
pre-compression size as original_size (500), while the file now on disk is
the 350-byte output that replaced it.  Spec section 9 records the increment
as the intended semantics, so this is a code bug. -/
theorem C4_finalize_overwrites_count_and_baseline :
    ((compress_file cfgDefault envSuccess "b.mkv" dbRecompress ⟨false, false⟩).2.1.files.map
      fun r => (r.status, r.compression_count, r.original_size, r.compressed_size)) =
      [(Status.completed, 1, 500, some 350)] ∧
    (compress_file cfgDefault envSuccess "b.mkv" dbRecompress ⟨false, false⟩).2.2.sourceReplaced
      = true ∧
    envSuccess.temp_size = 350 ∧
    (1 : Nat) ≠ 2 ∧
    (500 : Nat) ≠ 350 := by
  have h := compress_file_success_eq cfgDefault envSuccess "b.mkv" dbRecompress
    ⟨false, false⟩ 500 rfl (Or.inr rfl) rfl rfl rfl rfl (by decide) (by decide)
    (by norm_num [envSuccess, cfgDefault]) rfl (Or.inr rfl) rfl
  rw [h]
  refine ⟨by decide, rfl, rfl, by decide, by decide⟩

/-- C6: when free space on the temp area is below min_free_space_mb (and the
session reaches the resource gate: dependencies available and the schedule
gate passed, here via force_now), process_compression_queue returns skipped
with reason Insufficient system resources, having only appended the
notification and disk_space_error events: the file rows are untouched because
the fetch and the worker loop are never reached. -/
theorem C6_low_disk_skips_session (cfg : Config) (env : QueueEnv) (db : DB) (w : World)
    (hdeps : env.deps_ok = true) (hforce : env.force_now = true)
    (hdisk : env.resources.free_space_mb < cfg.min_free_space_mb) :
    process_compression_queue cfg env db w =
      (⟨"skipped", some "Insufficient system resources"⟩,
       (db.log_system_event "notification_error" "Insufficient disk space"
          "error").log_system_event "disk_space_error" "Insufficient disk space" "error",
       w) ∧
    (process_compression_queue cfg env db w).2.1.files = db.files ∧
    (⟨"disk_space_error", "Insufficient disk space", "error"⟩ : Event) ∈
      (process_compression_queue cfg env db w).2.1.events := by
  have hcd : check_disk_space cfg env.resources.free_space_mb db =
      (false,
       (db.log_system_event "notification_error" "Insufficient disk space"
          "error").log_system_event "disk_space_error" "Insufficient disk space" "error") := by
    simp [check_disk_space, hdisk]
  have hcr : check_system_resources cfg env.resources db =
      (false,
       (db.log_system_event "notification_error" "Insufficient disk space"
          "error").log_system_event "disk_space_error" "Insufficient disk space" "error") := by
    rw [check_system_resources, hcd]
  have hmain : process_compression_queue cfg env db w =
      (⟨"skipped", some "Insufficient system resources"⟩,
       (db.log_system_event "notification_error" "Insufficient disk space"
          "error").log_system_event "disk_space_error" "Insufficient disk space" "error",
       w) := by
    rw [process_compression_queue]
    rw [if_neg (by simp [hdeps]), if_neg (by simp [hforce]), hcr]
  refine ⟨hmain, ?_, ?_⟩
  · rw [hmain]
    rfl
  · rw [hmain]
    simp [DB.log_system_event]

/-- C6 witness: the resource-gate statement applied to the default
configuration, the low-disk environment and the one-record catalog. -/
theorem C6_low_disk_skips_session_witness :
    envQueueLowDisk.deps_ok = true ∧
    envQueueLowDisk.force_now = true ∧
    envQueueLowDisk.resources.free_space_mb < cfgDefault.min_free_space_mb ∧
    (process_compression_queue cfgDefault envQueueLowDisk dbOne ⟨false, false⟩ =
      (⟨"skipped", some "Insufficient system resources"⟩,
       (dbOne.log_system_event "notification_error" "Insufficient disk space"
          "error").log_system_event "disk_space_error" "Insufficient disk space" "error",
       ⟨false, false⟩) ∧
    (process_compression_queue cfgDefault envQueueLowDisk dbOne ⟨false, false⟩).2.1.files =
      dbOne.files ∧
    (⟨"disk_space_error", "Insufficient disk space", "error"⟩ : Event) ∈
      (process_compression_queue cfgDefault envQueueLowDisk dbOne ⟨false, false⟩).2.1.events) :=
  ⟨rfl, rfl, by norm_num [envQueueLowDisk, cfgDefault],
   C6_low_disk_skips_session cfgDefault envQueueLowDisk dbOne ⟨false, false⟩ rfl rfl
     (by norm_num [envQueueLowDisk, cfgDefault])⟩

theorem applyUpdate_status (r : FileRecord) (st : Status) (u : FileUpdate) :
    (applyUpdate r st u).status = st := rfl

/-- An update that moves the row to any status other than completed trivially
preserves the invariant, and so does leaving other rows alone. -/
theorem db_inv_update_ne (th : ℚ) (db : DB) (path : String) (st : Status)
    (u : FileUpdate) (hst : st ≠ Status.completed) (h : db_inv th db) :
    db_inv th (db.update_file_status path st u) := by
  intro r hr
  simp only [DB.update_file_status, List.mem_map] at hr
  obtain ⟨r0, hr0, heq⟩ := hr
  by_cases hc : r0.file_path = path
  · rw [if_pos hc] at heq
    subst heq
    intro habs
    rw [applyUpdate_status] at habs
    exact absurd habs hst
  · rw [if_neg hc] at heq
    subst heq
    exact h r0 hr0

/-- Appending an event never touches the rows. -/
theorem db_inv_log (th : ℚ) (db : DB) (a b c : String) (h : db_inv th db) :
    db_inv th (db.log_system_event a b c) := fun r hr => h r hr

/-- The invariant ignores actual_time. -/
theorem completed_inv_actual (th : ℚ) (r : FileRecord) (t : Nat)
    (h : completed_inv th r) : completed_inv th { r with actual_time := t } := h

/-- The invariant ignores estimated_time. -/
theorem completed_inv_estimated (th : ℚ) (r : FileRecord) (e : Int)
    (h : completed_inv th r) : completed_inv th { r with estimated_time := e } := h

/-- update_compression_time only writes actual_time and estimated_time, so it
preserves the invariant. -/
theorem db_inv_update_compression_time (th : ℚ) (db : DB) (path : String) (t : Nat)
    (h : db_inv th db) : db_inv th (update_compression_time db path t) := by
  have h1 : ∀ r ∈ db.files.map (fun r =>
      if r.file_path = path then { r with actual_time := t } else r), completed_inv th r := by
    intro r hr
    simp only [List.mem_map] at hr
    obtain ⟨r0, hr0, heq⟩ := hr
    by_cases hc : r0.file_path = path
    · rw [if_pos hc] at heq
      subst heq
      exact completed_inv_actual th r0 t (h r0 hr0)
    · rw [if_neg hc] at heq
      subst heq
      exact h r0 hr0
  intro r hr
  rw [update_compression_time] at hr
  rcases hfind : (db.files.map (fun r =>
      if r.file_path = path then { r with actual_time := t } else r)).find?
      (fun r => r.file_path = path) with _ | r1
  · simp only [hfind] at hr
    exact h1 r hr
  · simp only [hfind] at hr
    by_cases hsz : 0 < r1.original_size
    · rw [if_pos hsz] at hr
      simp only [List.mem_map] at hr
      obtain ⟨r0, hr0, heq⟩ := hr
      by_cases hcond : r0.status = Status.pending ∧ r0.estimated_time = 0
      · rw [if_pos hcond] at heq
        subst heq
        exact completed_inv_estimated th r0 _ (h1 r0 (List.mem_map.mpr hr0))
      · rw [if_neg hcond] at heq
        subst heq
        exact h1 r0 (List.mem_map.mpr hr0)
    · rw [if_neg hsz] at hr
      exact h1 r hr

/-- What a success result of finalize_compression guarantees: the recorded
compressed size is the temp output size, it is strictly positive, and it
meets the size-reduction threshold against the stat-captured original size. -/
theorem finalize_success_facts (cfg : Config) (env : CompressEnv) (os : Nat)
    (w : World) (cs : Nat) (red qs : ℚ) (chk : String) (w2 : World)
    (h : finalize_compression cfg env os w = (.success cs red qs chk, w2)) :
    cs = env.temp_size ∧ 0 < cs ∧
    (cs : ℚ) ≤ (os : ℚ) * (1 - cfg.size_reduction_threshold) := by
  rw [finalize_compression] at h
  by_cases h1 : ¬ w.tempExists = true ∨ env.temp_size = 0
  · rw [if_pos h1] at h
    cases h
  rw [if_neg h1] at h
  by_cases h2 : os = 0
  · rw [if_pos h2] at h
    cases h
  rw [if_neg h2] at h
  by_cases h3 : 1 - (env.temp_size : ℚ) / (os : ℚ) < cfg.size_reduction_threshold ∨
      (if cfg.quality_enabled then env.quality
        else ⟨100, true, "none"⟩ : QualityResult).acceptable = false
  · rw [if_pos h3] at h
    cases h
  rw [if_neg h3] at h
  by_cases h4 : cfg.verify_files = true ∧ ¬ env.verify_temp_ok = true
  · rw [if_pos h4] at h
    cases h
  rw [if_neg h4] at h
  by_cases h5 : ¬ env.move_ok = true
  · rw [if_pos h5] at h
    cases h
  rw [if_neg h5] at h
  simp only [Prod.mk.injEq, FinalizeResult.success.injEq] at h
  obtain ⟨⟨hcs, _, _, _⟩, _⟩ := h
  subst hcs
  push_neg at h1 h3
  obtain ⟨_, hts⟩ := h1
  obtain ⟨hred, _⟩ := h3
  have hts0 : 0 < env.temp_size := Nat.pos_of_ne_zero hts
  refine ⟨rfl, hts0, ?_⟩
  have hos : (0 : ℚ) < (os : ℚ) := by
    exact_mod_cast Nat.pos_of_ne_zero h2
  have hle : (env.temp_size : ℚ) / (os : ℚ) ≤ 1 - cfg.size_reduction_threshold := by
    linarith [hred]
  calc (env.temp_size : ℚ) = (env.temp_size : ℚ) / (os : ℚ) * (os : ℚ) := by
        field_simp
    _ ≤ (1 - cfg.size_reduction_threshold) * (os : ℚ) := by
        exact mul_le_mul_of_nonneg_right hle (le_of_lt hos)
    _ = (os : ℚ) * (1 - cfg.size_reduction_threshold) := by ring

/-- An update that sets status completed together with a positive
compressed_size meeting the threshold against the written original_size and a
non-null compression_date preserves the invariant. -/
theorem db_inv_update_completed (th : ℚ) (db : DB) (path : String) (u : FileUpdate)
    (cs os : Nat) (d : String)
    (hcs : u.compressed_size = some cs) (hos : u.original_size = some os)
    (hd : u.compression_date = some d)
    (hpos : 0 < cs) (hb : (cs : ℚ) ≤ (os : ℚ) * (1 - th))
    (h : db_inv th db) : db_inv th (db.update_file_status path Status.completed u) := by
  intro r hr
  simp only [DB.update_file_status, List.mem_map] at hr
  obtain ⟨r0, hr0, heq⟩ := hr
  by_cases hc : r0.file_path = path
  · rw [if_pos hc] at heq
    subst heq
    intro _
    constructor
    · refine ⟨cs, ?_, hpos, ?_⟩
      · simp [applyUpdate, hcs]
      · have : (applyUpdate r0 Status.completed u).original_size = os := by
          simp [applyUpdate, hos]
        rw [this]
        exact hb
    · simp [applyUpdate, hd]
  · rw [if_neg hc] at heq
    subst heq
    exact h r0 hr0

/-- compress_file preserves the completed-record invariant on every branch,
and its success branch establishes it for the finalized record. -/
theorem compress_file_preserves (cfg : Config) (env : CompressEnv) (path : String)
    (db : DB) (w : World) (h : db_inv cfg.size_reduction_threshold db) :
    db_inv cfg.size_reduction_threshold (compress_file cfg env path db w).2.1 := by
  rcases hso : env.stat_original with _ | os
  · simp only [compress_file, hso]
    exact h
  · simp only [compress_file, hso]
    have h1 : db_inv cfg.size_reduction_threshold
        (db.update_file_status path Status.in_progress
          { processing_started := some env.now }) :=
      db_inv_update_ne _ _ _ _ _ (by decide) h
    by_cases hv : cfg.verify_files = true ∧ ¬ env.verify_original_ok = true
    · rw [if_pos hv]
      exact db_inv_update_compression_time _ _ _ _
        (db_inv_update_ne _ _ _ _ _ (by decide) h1)
    · rw [if_neg hv]
      by_cases hhb : ¬ run_handbrake env = true
      · rw [if_pos hhb]
        by_cases hp : env.pausedFlag = true
        · rw [if_pos hp]
          exact db_inv_update_compression_time _ _ _ _
            (db_inv_update_ne _ _ _ _ _ (by decide) h1)
        · rw [if_neg hp]
          by_cases hrn : ¬ env.runningFlag = true
          · rw [if_pos hrn]
            exact db_inv_update_compression_time _ _ _ _
              (db_inv_update_ne _ _ _ _ _ (by decide) h1)
          · rw [if_neg hrn]
            exact db_inv_update_compression_time _ _ _ _
              (db_inv_update_ne _ _ _ _ _ (by decide) h1)
      · rw [if_neg hhb]
        rcases hfin : finalize_compression cfg env os { w with tempExists := env.temp_created }
          with ⟨fr, w2⟩
        cases fr with
        | success cs red qs chk =>
            simp only [hfin]
            obtain ⟨hcseq, hpos, hb⟩ :=
              finalize_success_facts cfg env os _ cs red qs chk w2 hfin
            exact db_inv_update_compression_time _ _ _ _
              (db_inv_update_completed _ _ _ _ cs os env.now rfl rfl rfl hpos hb h1)
        | skippedResult reason cs2 qs2 =>
            simp only [hfin]
            exact db_inv_update_compression_time _ _ _ _
              (db_inv_update_ne _ _ _ _ _ (by decide) h1)
        | errorResult msg =>
            simp only [hfin]
            exact db_inv_update_compression_time _ _ _ _ h1
        | raised msg =>
            simp only [hfin]
            exact db_inv_update_compression_time _ _ _ _
              (db_inv_update_ne _ _ _ _ _ (by decide) h1)

/-- pause_compression preserves the invariant: it only pushes records to
paused and logs an event. -/
theorem db_inv_pause (th : ℚ) (active : List String) (db : DB)
    (h : db_inv th db) : db_inv th (pause_compression active db) := by
  rw [pause_compression]
  apply db_inv_log
  induction active generalizing db with
  | nil => exact h
  | cons p ps ih =>
      exact ih _ (db_inv_update_ne th db p Status.paused {} (by decide) h)

/-- resume_compression preserves the invariant: paused rows move to pending,
all other rows are untouched. -/
theorem db_inv_resume (th : ℚ) (db : DB) (h : db_inv th db) :
    db_inv th (resume_compression db) := by
  rw [resume_compression]
  apply db_inv_log
  intro r hr
  simp only [List.mem_map] at hr
  obtain ⟨r0, hr0, heq⟩ := hr
  by_cases hs : r0.status = Status.paused
  · rw [if_pos hs] at heq
    subst heq
    intro habs
    cases habs
  · rw [if_neg hs] at heq
    subst heq
    exact h r0 hr0

/-- The worker loop of a session preserves the invariant. -/
theorem db_inv_run_compression_jobs (cfg : Config) (env : QueueEnv)
    (files : List FileRecord) :
    ∀ (db : DB) (w : World) (a b c d : Nat), db_inv cfg.size_reduction_threshold db →
      db_inv cfg.size_reduction_threshold
        (run_compression_jobs cfg env files db w a b c d).1 := by
  induction files with
  | nil =>
      intro db w a b c d h
      exact h
  | cons f rest ih =>
      intro db w a b c d h
      rw [run_compression_jobs]
      rcases hcf : compress_file cfg (env.file_envs f.file_path) f.file_path db w
        with ⟨res, db2, w2⟩
      have h2 : db_inv cfg.size_reduction_threshold db2 := by
        have := compress_file_preserves cfg (env.file_envs f.file_path) f.file_path db w h
        rw [hcf] at this
        exact this
      simp only [hcf]
      by_cases hs : res.status = "success"
      · rw [if_pos hs]
        rcases (env.file_envs f.file_path).stat_original with _ | os
        · exact ih db2 w2 _ _ _ _ h2
        · exact ih db2 w2 _ _ _ _ h2
      · rw [if_neg hs]
        by_cases he : res.status = "error"
        · rw [if_pos he]
          exact ih db2 w2 _ _ _ _ h2
        · rw [if_neg he]
          exact ih db2 w2 _ _ _ _ h2

/-- check_disk_space never touches the rows. -/
theorem db_inv_check_disk (th : ℚ) (cfg : Config) (fs : ℚ) (db : DB)
    (okd : Bool) (dbd : DB) (heq : check_disk_space cfg fs db = (okd, dbd))
    (h : db_inv th db) : db_inv th dbd := by
  rw [check_disk_space] at heq
  split at heq
  · injection heq with h1 h2
    exact h2 ▸ db_inv_log _ _ _ _ _ (db_inv_log _ _ _ _ _ h)
  · injection heq with h1 h2
    exact h2 ▸ h

/-- check_system_resources never touches the rows. -/
theorem db_inv_check_resources (th : ℚ) (cfg : Config) (res : ResourceEnv) (db : DB)
    (ok : Bool) (db2 : DB) (heq : check_system_resources cfg res db = (ok, db2))
    (h : db_inv th db) : db_inv th db2 := by
  rw [check_system_resources] at heq
  split at heq
  · rename_i dbd hcd
    injection heq with h1 h2
    exact h2 ▸ db_inv_check_disk th cfg res.free_space_mb db false dbd hcd h
  · rename_i dbd hcd
    have hdbd : db_inv th dbd := db_inv_check_disk th cfg res.free_space_mb db true dbd hcd h
    split at heq
    · injection heq with h1 h2
      exact h2 ▸ db_inv_log _ _ _ _ _ hdbd
    · injection heq with h1 h2
      by_cases hc : (90 : ℚ) < res.cpu_percent
      · rw [if_pos hc] at h2
        exact h2 ▸ db_inv_log _ _ _ _ _ hdbd
      · rw [if_neg hc] at h2
        exact h2 ▸ hdbd

/-- A whole session preserves the invariant. -/
theorem db_inv_process_queue (cfg : Config) (env : QueueEnv) (db : DB) (w : World)
    (h : db_inv cfg.size_reduction_threshold db) :
    db_inv cfg.size_reduction_threshold (process_compression_queue cfg env db w).2.1 := by
  rw [process_compression_queue]
  split
  · exact h
  split
  · exact h
  split
  · rename_i db2 hres
    exact db_inv_check_resources _ cfg env.resources db false db2 hres h
  · rename_i db2 hres
    have hdb2 : db_inv cfg.size_reduction_threshold db2 :=
      db_inv_check_resources _ cfg env.resources db true db2 hres h
    dsimp only
    split
    · exact hdb2
    · have hdb3 := db_inv_run_compression_jobs cfg env
        (get_files_for_compression db2 (env.limit.getD cfg.compression_queue_size))
        db2 w 0 0 0 0 hdb2
      split
      · intro r hr
        exact hdb3 r hr
      · exact hdb3

/-- C1: the completed-record invariant (positive compressed_size, non-null
compression_date, compressed_size at most original_size times one minus
size_reduction_threshold) is established by every successful finalize (last
conjunct) and preserved by every operation of the pipeline: compress_file on
all its branches, pause, resume, stop, prioritize, the time-seeding update,
and a whole process_compression_queue session. -/
theorem C1_completed_invariant (cfg : Config) (env : CompressEnv) (qenv : QueueEnv)
    (path : String) (active : List String) (prio : Int) (t : Nat) (db : DB) (w : World)
    (h : db_inv cfg.size_reduction_threshold db) :
    db_inv cfg.size_reduction_threshold (compress_file cfg env path db w).2.1 ∧
    db_inv cfg.size_reduction_threshold (pause_compression active db) ∧
    db_inv cfg.size_reduction_threshold (resume_compression db) ∧
    db_inv cfg.size_reduction_threshold (stop_compression db) ∧
    db_inv cfg.size_reduction_threshold (prioritize_file db path prio) ∧
    db_inv cfg.size_reduction_threshold (update_compression_time db path t) ∧
    db_inv cfg.size_reduction_threshold (process_compression_queue cfg qenv db w).2.1 ∧
    (∀ (os cs : Nat) (red qs : ℚ) (chk : String) (w2 : World),
      finalize_compression cfg env os w = (.success cs red qs chk, w2) →
      0 < cs ∧ (cs : ℚ) ≤ (os : ℚ) * (1 - cfg.size_reduction_threshold)) := by
  refine ⟨compress_file_preserves cfg env path db w h,
    db_inv_pause _ active db h,
    db_inv_resume _ db h,
    db_inv_log _ db _ _ _ h,
    db_inv_log _ _ _ _ _ (db_inv_update_ne _ db path Status.pending _ (by decide) h),
    db_inv_update_compression_time _ db path t h,
    db_inv_process_queue cfg qenv db w h,
    ?_⟩
  intro os cs red qs chk w2 hfin
  obtain ⟨_, hpos, hb⟩ := finalize_success_facts cfg env os w cs red qs chk w2 hfin
  exact ⟨hpos, hb⟩

/-- C1 witness: the invariant statement applied to the default configuration,
the concrete success environment and the one-record (pending) catalog, whose
invariant holds vacuously. -/
theorem C1_completed_invariant_witness :
    db_inv cfgDefault.size_reduction_threshold dbOne ∧
    (db_inv cfgDefault.size_reduction_threshold
        (compress_file cfgDefault envSuccess "a.mkv" dbOne ⟨false, false⟩).2.1 ∧
      db_inv cfgDefault.size_reduction_threshold (pause_compression ["a.mkv"] dbOne) ∧
      db_inv cfgDefault.size_reduction_threshold (resume_compression dbOne) ∧
      db_inv cfgDefault.size_reduction_threshold (stop_compression dbOne) ∧
      db_inv cfgDefault.size_reduction_threshold (prioritize_file dbOne "a.mkv" 10) ∧
      db_inv cfgDefault.size_reduction_threshold (update_compression_time dbOne "a.mkv" 60) ∧
      db_inv cfgDefault.size_reduction_threshold
        (process_compression_queue cfgDefault envQueueLowDisk dbOne ⟨false, false⟩).2.1 ∧
      (∀ (os cs : Nat) (red qs : ℚ) (chk : String) (w2 : World),
        finalize_compression cfgDefault envSuccess os ⟨false, false⟩ =
          (.success cs red qs chk, w2) →
        0 < cs ∧ (cs : ℚ) ≤ (os : ℚ) * (1 - cfgDefault.size_reduction_threshold))) :=
  have hinv : db_inv cfgDefault.size_reduction_threshold dbOne := by
    intro r hr
    simp only [dbOne, List.mem_singleton] at hr
    subst hr
    intro habs
    exact absurd habs (by decide)
  ⟨hinv, C1_completed_invariant cfgDefault envSuccess envQueueLowDisk "a.mkv" ["a.mkv"]
    10 60 dbOne ⟨false, false⟩ hinv⟩
